import Mathlib

/-
Verification of the folder-watcher / Dolby Vision profile 7 encoder driver
(src/folder_watcher_dv7_encoder.py) against its natural-language specification.

The Python program is shallowly embedded below:
* the configuration mapping (a Python dict with insertion order) becomes an
  ordered association list of string keys and scalar values;
* `construct_command` becomes a pure function returning the built token list
  together with the mapping as it stands after the call (the function pops
  the reserved key from the dict it is given);
* the byte-at-a-time streaming loop of `run_encoding` becomes a recursive
  function over the list of bytes read from the child process, and the exit
  code of the child process is an explicit parameter;
* the body of the `while True:` loop of `main` becomes a step function from a
  watcher state (configuration, which files sit in the watch folder, what has
  been archived) to either "continue polling" or "process exits with a code";
  filesystem events (does a path exist, does a move succeed) and the encoder
  itself are oracles supplied in a per-cycle environment record;
* `sys.exit(1)` reached through `error(...)` and the exit of an uncaught
  exception are modelled as exit code 1, `sys.exit(0)` on KeyboardInterrupt
  as exit code 0.

Paths are modelled as plain strings: `Path(a) / b` becomes `a ++ "/" ++ b`
and `Path(s).name` is computed from the string by the posix rules that
`pathlib` uses (trailing separators and single-dot components are ignored,
the name is the last remaining component).
-/

namespace DV7

/-- Tests whether the first list of characters leads (is an initial segment
of) the second; building block for the Python substring test. -/
def listLeads : List Char → List Char → Bool
  | [], _ => true
  | _ :: _, [] => false
  | p :: ps, c :: cs => p == c && listLeads ps cs

/-- Tests whether the first list of characters occurs contiguously inside the
second; Python `pat in s` on strings. -/
def listHasSub (pat : List Char) : List Char → Bool
  | [] => listLeads pat []
  | c :: rest => listLeads pat (c :: rest) || listHasSub pat rest

/-- Python `pat in s` for strings. -/
def pyIn (pat s : String) : Bool :=
  listHasSub pat.data s.data

/-- Wraps a string in double quotes, as the f-strings of the source do. -/
def pyQuote (s : String) : String :=
  "\"" ++ s ++ "\""

/-- Scalar values a JSON configuration entry can hold (string, number,
boolean, null). Numbers are modelled as integers. -/
inductive ConfigValue where
  | str (s : String)
  | int (n : Int)
  | bool (b : Bool)
  | null
deriving DecidableEq

/-- Python `str(value)` on the scalars above. -/
def pyStr : ConfigValue → String
  | .str s => s
  | .int n => toString n
  | .bool b => if b then "True" else "False"
  | .null => "None"

/-- A Python dict from string keys to scalars, with its insertion order. -/
abbrev PyDict := List (String × ConfigValue)

/-- Key membership and value access, `config[key]` on the first (for a dict,
the only) entry with the given key. -/
def dictLookup : PyDict → String → Option ConfigValue
  | [], _ => none
  | (k, v) :: rest, key => if k = key then some v else dictLookup rest key

/-- The effect of `config.pop(key)` on the mapping: the first entry with the
given key is removed, every other entry is kept in order. -/
def dictErase : PyDict → String → PyDict
  | [], _ => []
  | (k, v) :: rest, key => if k = key then rest else (k, v) :: dictErase rest key

/-- The reserved configuration key naming the encoder script. -/
def reservedKey : String := "encoder_script_path"

/-- A string containing a single backslash character. -/
def bslashStr : String := "\\"

/-- The source's path-likeness test: the string contains a backslash or a
forward slash. -/
def hasSep (s : String) : Bool :=
  pyIn bslashStr s || pyIn "/" s

/-- The quoting step of `construct_command`: a string value containing a path
separator is wrapped in quotes when it names an existing path (the `ex`
oracle stands for `Path(value).exists()`) or contains the substring "temp";
every other value is left as it is. -/
def quoteStep (ex : String → Bool) (v : ConfigValue) : ConfigValue :=
  match v with
  | .str s =>
      if hasSep s && (ex s || pyIn "temp" s) then .str (pyQuote s) else .str s
  | v => v

/-- The tokens one configuration entry contributes to the command: nothing
when the value is null, otherwise the flag `--key` followed by the string
form of the (possibly quoted) value. -/
def configArg (ex : String → Bool) (k : String) (v : ConfigValue) : List String :=
  if quoteStep ex v = ConfigValue.null then []
  else ["--" ++ k, pyStr (quoteStep ex v)]

/-- The tokens contributed by the whole mapping, in its iteration order; the
`for key, value in config.items()` loop of the source. -/
def configArgs (ex : String → Bool) : PyDict → List String
  | [] => []
  | (k, v) :: rest => configArg ex k v ++ configArgs ex rest

/-- The entries of a mapping whose value is not null, in order. -/
def filterNonNull : PyDict → PyDict
  | [] => []
  | (k, v) :: rest =>
      if v = ConfigValue.null then filterNonNull rest
      else (k, v) :: filterNonNull rest

/-- One `--key value` token pair per listed entry, in order. -/
def pairTokens (ex : String → Bool) : PyDict → List String
  | [] => []
  | (k, v) :: rest => ("--" ++ k) :: pyStr (quoteStep ex v) :: pairTokens ex rest

/-- Splits a character list at every slash; the groups between separators,
kept in order, empty groups included. -/
def splitSlash : List Char → List (List Char)
  | [] => [[]]
  | c :: rest =>
      match splitSlash rest with
      | [] => [[]]
      | g :: gs => if c = '/' then [] :: g :: gs else (c :: g) :: gs

/-- A path component that contributes to the name: neither empty nor the
single-dot component, both of which `pathlib` drops. -/
def goodPart (p : List Char) : Bool :=
  !(p == []) && !(p == ['.'])

/-- `Path(s).name` under posix rules: the last slash-separated component,
with empty and single-dot components ignored; empty when none remains. -/
def pathName (s : String) : String :=
  String.mk ((((splitSlash s.data).filter goodPart).getLast?).getD [])

/-- `Path(a) / b` rendered back to a string. -/
def pathJoin (a b : String) : String :=
  a ++ "/" ++ b

/-- The four fixed trailing token pairs of the command: the two hardcoded
inputs inside the watch folder, and the two output artifacts named after the
final path component of the watch folder. -/
def fixedTokens (watch output : String) : List String :=
  ["--input", pyQuote (pathJoin watch "DolbyMaster.mov"),
   "--input-metadata", pyQuote (pathJoin watch "DolbyMetadata.xml"),
   "--output-bl", pyQuote (pathJoin output (pathName watch ++ "_bl.h265")),
   "--output-el", pyQuote (pathJoin output (pathName watch ++ "_el.h265"))]

/-- Outcome of `construct_command`: the reserved key can be missing (the
source prints a diagnostic and exits), the popped value can fail to be a
string (`Path(value)` raises and the interpreter exits — the pop has already
happened), or the command is built. The mapping as it stands after the call
is returned alongside. -/
inductive BuildResult where
  | configMissing
  | badScriptValue (config : PyDict)
  | ok (command : List String) (config : PyDict)
deriving DecidableEq

/-- `construct_command(config, watch_folder, output_folder)`: checks for the
reserved key, pops it, emits the interpreter prefix, one `--key value` pair
per remaining non-null entry (with the quoting step applied to path-like
strings), then the four fixed input/output pairs. `sysExe` stands for
`sys.executable`, `ex` for the `Path(value).exists()` oracle. -/
def construct_command (ex : String → Bool) (sysExe : String) (config : PyDict)
    (watch_folder output_folder : String) : BuildResult :=
  match dictLookup config reservedKey with
  | none => .configMissing
  | some v =>
      match v with
      | .str script_path =>
          .ok ([pyQuote sysExe, "-u", pyQuote script_path]
                ++ configArgs ex (dictErase config reservedKey)
                ++ fixedTokens watch_folder output_folder)
              (dictErase config reservedKey)
      | _ => .badScriptValue (dictErase config reservedKey)

/-- The mapping held by the caller after `construct_command` returns or
raises; none when the missing-key diagnostic path exits first. -/
def buildConfigAfter : BuildResult → Option PyDict
  | .configMissing => none
  | .badScriptValue c => some c
  | .ok _ c => some c

/-- Python `b'\n' in line_buffer` on a byte list; newline is byte 10. -/
def hasNL : List Nat → Bool
  | [] => false
  | b :: rest => if b = 10 then true else hasNL rest

/-- The byte-at-a-time read loop of `run_encoding`: each byte read is added
to the buffer; when the buffer holds a newline, the bytes before the first
newline are emitted as a completed line and removed together with the
newline; whatever is left in the buffer when the stream closes is dropped. -/
def streamLoop : List Nat → List Nat → List (List Nat)
  | _, [] => []
  | buf, b :: rest =>
      if hasNL (buf ++ [b]) then
        (buf ++ [b]).takeWhile (fun x => x != 10) ::
          streamLoop ((buf ++ [b]).drop
            (((buf ++ [b]).takeWhile (fun x => x != 10)).length + 1)) rest
      else
        streamLoop (buf ++ [b]) rest

/-- Presentation class of an output line: printed red, yellow, or plain. -/
inductive LineClass where
  | errorClass
  | warningClass
  | neutral
deriving DecidableEq

/-- Python `line_str.lower()`, modelled characterwise (the substrings being
searched for are plain ASCII). -/
def strLower (s : String) : String :=
  String.mk (s.data.map Char.toLower)

/-- The colorizing test of `run_encoding`: "error" anywhere in the lowered
line wins, else "warning", else the line is printed unchanged. -/
def classifyLine (s : String) : LineClass :=
  if pyIn "error" (strLower s) then .errorClass
  else if pyIn "warning" (strLower s) then .warningClass
  else .neutral

/-- `run_encoding(command)` after the process was launched: the bytes the
child wrote (merged stdout and stderr) are streamed into completed lines,
each decoded (the `decode` oracle stands for `bytes.decode` under the
ambient encoding), right-stripped and classified; the returned flag is the
comparison of the exit code with zero. -/
def run_encoding (decode : List Nat → String) (stream : List Nat)
    (returncode : Int) : List (LineClass × String) × Bool :=
  ((streamLoop [] stream).map (fun lineBytes =>
      let lineStr := (decode lineBytes).trimRight
      (classifyLine lineStr, lineStr)),
   returncode == 0)

/-- The exit code produced by the `error` helper, `sys.exit(1)`. -/
def errorExitCode : Nat := 1

/-- The exit code of the interpreter on an uncaught exception. -/
def uncaughtExitCode : Nat := 1

/-- The exit code on KeyboardInterrupt, `sys.exit(0)` in `main`. -/
def keyboardInterruptExitCode : Nat := 0

/-- `load_config(config_path)`, with the filesystem and the JSON parser as
boolean oracles: a missing file or malformed content reaches `error`, which
exits with code 1; otherwise the parsed mapping is returned. -/
def load_config (fileFound parseOk : Bool) (parsed : PyDict) :
    Except Nat PyDict :=
  if fileFound = false then .error errorExitCode
  else if parseOk = false then .error errorExitCode
  else .ok parsed

/-- State carried across iterations of the watch loop: the configuration
mapping (shared, reused every cycle) and the observable filesystem facts the
loop manipulates. `outputsWritten` records that a successful encode has
produced the two artifacts, per the black-box contract of the encoder (the
encoder itself is outside this repository; modelled from the spec, which
states a successful run writes the two output files). -/
structure WatcherState where
  config : PyDict
  movPresent : Bool
  xmlPresent : Bool
  movArchived : Bool
  xmlArchived : Bool
  outputsWritten : Bool
deriving DecidableEq

/-- Per-cycle environment: the existence oracle used by the quoting step,
whether the child process could be launched, the bytes it writes, its exit
code, and whether each of the two archive moves succeeds. -/
structure CycleEnv where
  ex : String → Bool
  launchOk : Bool
  stream : List Nat
  returncode : Int
  move1Ok : Bool
  move2Ok : Bool

/-- Result of one iteration of the `while True:` body: either the loop goes
back to sleeping and polling with the given state, or the process exits with
the given code. -/
inductive CycleOutcome where
  | next (s : WatcherState)
  | exit (code : Nat) (s : WatcherState)
deriving DecidableEq

/-- One iteration of the loop body of `main`: when both inputs are present,
build the command (a missing reserved key or a bad script value ends the
process), run the encoder (a launch failure ends the process), and on
success move both inputs into the processed folder (a failed move ends the
process; the first move can already have happened when the second fails).
A nonzero exit code only logs and returns to polling. -/
def stepCycle (decode : List Nat → String) (sysExe watch output : String)
    (env : CycleEnv) (s : WatcherState) : CycleOutcome :=
  if s.movPresent && s.xmlPresent then
    match construct_command env.ex sysExe s.config watch output with
    | .configMissing => .exit errorExitCode s
    | .badScriptValue c => .exit uncaughtExitCode { s with config := c }
    | .ok _cmd c =>
        if env.launchOk then
          if (run_encoding decode env.stream env.returncode).2 then
            if env.move1Ok then
              if env.move2Ok then
                .next { s with config := c, outputsWritten := true,
                               movPresent := false, movArchived := true,
                               xmlPresent := false, xmlArchived := true }
              else
                .exit errorExitCode { s with config := c, outputsWritten := true,
                                             movPresent := false, movArchived := true }
            else
              .exit errorExitCode { s with config := c, outputsWritten := true }
          else
            .next { s with config := c }
        else
          .exit errorExitCode { s with config := c }
  else
    .next s

/-- A concrete decoder for witnesses: bytes to characters one for one. -/
def decodeAscii (bs : List Nat) : String :=
  String.mk (bs.map Char.ofNat)

/-- An existence oracle under which no path exists. -/
def exFalse : String → Bool := fun _ => false

/-- A small concrete configuration: the reserved key and one flag. -/
def cfg0 : PyDict :=
  [(reservedKey, ConfigValue.str "enc.py"), ("threads", ConfigValue.int 4)]

/-- A concrete configuration of mixed scalar types, null included. -/
def cfgMix : PyDict :=
  [(reservedKey, ConfigValue.str "enc.py"),
   ("preset", ConfigValue.str "slow"),
   ("crf", ConfigValue.int 18),
   ("hdr", ConfigValue.bool true),
   ("extra", ConfigValue.null)]

/-- Start state of a cycle: full configuration, both inputs present. -/
def st0 : WatcherState :=
  ⟨cfg0, true, true, false, false, false⟩

/-- The state after one failed encode on `st0`: the reserved key has been
popped from the shared configuration, both inputs still present. -/
def st1 : WatcherState :=
  ⟨[("threads", ConfigValue.int 4)], true, true, false, false, false⟩

/-- Environment of a cycle whose encode exits with code 2. -/
def envEncodeFail : CycleEnv :=
  ⟨exFalse, true, [], 2, true, true⟩

/-- Environment of a cycle whose encode succeeds but whose second archive
move fails. -/
def envArchFail : CycleEnv :=
  ⟨exFalse, true, [], 0, true, false⟩

/-- The end state of a cycle on `st0` under `envArchFail`: the media master
was already moved into the processed folder when the move of the metadata
document failed. -/
def st4 : WatcherState :=
  ⟨[("threads", ConfigValue.int 4)], false, true, true, false, true⟩

theorem construct_command_ok (ex : String → Bool) (sysExe : String) (cfg : PyDict)
    (w o p : String) (h : dictLookup cfg reservedKey = some (ConfigValue.str p)) :
    construct_command ex sysExe cfg w o =
      .ok ([pyQuote sysExe, "-u", pyQuote p]
            ++ configArgs ex (dictErase cfg reservedKey)
            ++ fixedTokens w o)
          (dictErase cfg reservedKey) := by
  unfold construct_command
  rw [h]

theorem construct_command_missing (ex : String → Bool) (sysExe : String)
    (cfg : PyDict) (w o : String) (h : dictLookup cfg reservedKey = none) :
    construct_command ex sysExe cfg w o = .configMissing := by
  unfold construct_command
  rw [h]

theorem quoteStep_eq_null_iff (ex : String → Bool) (v : ConfigValue) :
    quoteStep ex v = ConfigValue.null ↔ v = ConfigValue.null := by
  cases v with
  | str s =>
      by_cases hc : (hasSep s && (ex s || pyIn "temp" s)) = true
      · simp [quoteStep, hc]
      · simp [quoteStep, hc]
  | int n => simp [quoteStep]
  | bool b => simp [quoteStep]
  | null => simp [quoteStep]

theorem configArg_of_ne_null (ex : String → Bool) (k : String) (v : ConfigValue)
    (h : v ≠ ConfigValue.null) :
    configArg ex k v = ["--" ++ k, pyStr (quoteStep ex v)] := by
  unfold configArg
  rw [if_neg]
  exact fun hq => h ((quoteStep_eq_null_iff ex v).mp hq)

theorem configArgs_eq_pairTokens (ex : String → Bool) (d : PyDict) :
    configArgs ex d = pairTokens ex (filterNonNull d) := by
  induction d with
  | nil => rfl
  | cons kv rest ih =>
      obtain ⟨k, v⟩ := kv
      by_cases h : v = ConfigValue.null
      · subst h
        simpa [configArgs, configArg, quoteStep, filterNonNull] using ih
      · rw [configArgs, configArg_of_ne_null ex k v h]
        simp [filterNonNull, h, pairTokens, ih]

theorem pairTokens_length (ex : String → Bool) (d : PyDict) :
    (pairTokens ex d).length = 2 * d.length := by
  induction d with
  | nil => rfl
  | cons kv rest ih =>
      obtain ⟨k, v⟩ := kv
      simp [pairTokens, ih]
      omega

theorem dictLookup_eq_none (d : PyDict) (key : String)
    (h : key ∉ d.map Prod.fst) : dictLookup d key = none := by
  induction d with
  | nil => rfl
  | cons kv rest ih =>
      obtain ⟨k, v⟩ := kv
      simp only [List.map_cons, List.mem_cons, not_or] at h
      rw [dictLookup, if_neg, ih h.2]
      exact fun hk => h.1 hk.symm

theorem dictLookup_erase_self (d : PyDict) (key : String)
    (hnd : (d.map Prod.fst).Nodup) :
    dictLookup (dictErase d key) key = none := by
  induction d with
  | nil => rfl
  | cons kv rest ih =>
      obtain ⟨k, v⟩ := kv
      simp only [List.map_cons, List.nodup_cons] at hnd
      by_cases hk : k = key
      · subst hk
        rw [dictErase, if_pos rfl]
        exact dictLookup_eq_none rest k hnd.1
      · rw [dictErase, if_neg hk, dictLookup, if_neg hk]
        exact ih hnd.2

theorem dictLookup_erase_ne (d : PyDict) (key k : String) (h : k ≠ key) :
    dictLookup (dictErase d key) k = dictLookup d k := by
  induction d with
  | nil => rfl
  | cons kv rest ih =>
      obtain ⟨a, b⟩ := kv
      by_cases ha : a = key
      · subst ha
        rw [dictErase, if_pos rfl, dictLookup, if_neg]
        exact fun hak => h hak.symm
      · by_cases hak : a = k
        · subst hak
          rw [dictErase, if_neg ha, dictLookup, if_pos rfl, dictLookup, if_pos rfl]
        · rw [dictErase, if_neg ha, dictLookup, if_neg hak, dictLookup, if_neg hak]
          exact ih

/-- C1, refuted: `construct_command` does have a side effect on the
configuration mapping. On a mapping holding the reserved key and one other
entry, after the call the mapping no longer equals the one passed in; in
particular the reserved key is gone. -/
theorem construct_command_mutates_config :
    dictLookup cfg0 reservedKey = some (ConfigValue.str "enc.py")
    ∧ buildConfigAfter (construct_command exFalse "py" cfg0 "w" "o")
        = some [("threads", ConfigValue.int 4)]
    ∧ some [("threads", ConfigValue.int 4)] ≠ some cfg0
    ∧ dictLookup [("threads", ConfigValue.int 4)] reservedKey = none := by
  exact ⟨rfl, rfl, by decide, rfl⟩

/-- C1 amended: the only side effect of `construct_command` on the
configuration mapping is that the reserved encoder-path key is popped: after
any call on a mapping holding the reserved key, the mapping equals the
original with that entry removed, so the reserved key is no longer present
while every other key still looks up to its original value. -/
theorem construct_command_pops_reserved_only :
    ∀ (ex : String → Bool) (sysExe : String) (cfg : PyDict) (w o : String),
    (dictLookup cfg reservedKey).isSome = true →
    buildConfigAfter (construct_command ex sysExe cfg w o)
        = some (dictErase cfg reservedKey)
    ∧ ((cfg.map Prod.fst).Nodup →
        dictLookup (dictErase cfg reservedKey) reservedKey = none)
    ∧ (∀ k, k ≠ reservedKey →
        dictLookup (dictErase cfg reservedKey) k = dictLookup cfg k) := by
  intro ex sysExe cfg w o hs
  refine ⟨?_, fun hnd => dictLookup_erase_self cfg reservedKey hnd,
          fun k hk => dictLookup_erase_ne cfg reservedKey k hk⟩
  cases h : dictLookup cfg reservedKey with
  | none => rw [h] at hs; simp at hs
  | some v =>
      unfold construct_command
      rw [h]
      cases v <;> rfl

/-- Witness for the amended C1 on a concrete mapping. -/
theorem construct_command_pops_reserved_only_witness :
    (dictLookup cfg0 reservedKey).isSome = true
    ∧ (buildConfigAfter (construct_command exFalse "py" cfg0 "w" "o")
          = some (dictErase cfg0 reservedKey)
       ∧ ((cfg0.map Prod.fst).Nodup →
            dictLookup (dictErase cfg0 reservedKey) reservedKey = none)
       ∧ (∀ k, k ≠ reservedKey →
            dictLookup (dictErase cfg0 reservedKey) k = dictLookup cfg0 k)) :=
  ⟨by decide, construct_command_pops_reserved_only exFalse "py" cfg0 "w" "o" (by decide)⟩

/-- C5: in the output of `construct_command`, a string value containing a
path separator is wrapped in quotes exactly when the existence oracle
accepts it or it contains the substring "temp"; strings without a
separator, numbers and booleans are emitted as their plain string form, and
null values produce no tokens. Wrapping is a real change: the quoted string
never equals the original. -/
theorem quoting_heuristic :
    ∀ (ex : String → Bool) (k s : String),
    pyQuote s ≠ s
    ∧ (hasSep s = true →
        configArg ex k (ConfigValue.str s)
          = ["--" ++ k, if ex s || pyIn "temp" s then pyQuote s else s])
    ∧ (hasSep s = false →
        configArg ex k (ConfigValue.str s) = ["--" ++ k, s])
    ∧ (∀ n : Int, configArg ex k (ConfigValue.int n) = ["--" ++ k, toString n])
    ∧ (∀ b : Bool, configArg ex k (ConfigValue.bool b)
        = ["--" ++ k, if b then "True" else "False"])
    ∧ configArg ex k ConfigValue.null = [] := by
  intro ex k s
  refine ⟨?_, ?_, ?_, fun n => rfl, fun b => rfl, rfl⟩
  · intro h
    have hl := congrArg String.length h
    simp only [pyQuote, String.length_append] at hl
    rw [show ("\"" : String).length = 1 from rfl] at hl
    omega
  · intro hsep
    rw [configArg_of_ne_null ex k (ConfigValue.str s) (by simp)]
    by_cases hc : (ex s || pyIn "temp" s) = true
    · simp [quoteStep, hsep, hc, pyStr]
    · simp [quoteStep, hsep, hc, pyStr]
  · intro hsep
    simp [configArg, quoteStep, hsep, pyStr]

/-- Witness for C5 on a separator-and-"temp" string under the all-false
existence oracle. -/
theorem quoting_heuristic_witness :
    hasSep "a/tempdir" = true
    ∧ configArg exFalse "path" (ConfigValue.str "a/tempdir")
        = ["--" ++ "path",
           if exFalse "a/tempdir" || pyIn "temp" "a/tempdir"
           then pyQuote "a/tempdir" else "a/tempdir"] :=
  ⟨by decide, (quoting_heuristic exFalse "path" "a/tempdir").2.1 (by decide)⟩

/-- C6: on a mapping with distinct keys holding the reserved key, the built
command is the fixed interpreter prefix, then one `--key value` token pair
per non-null remaining entry in the original iteration order and no pair at
all for a null-valued entry, then the four fixed pairs; the flag section has
exactly twice as many tokens as there are non-null remaining entries. -/
theorem flag_pairs_per_key :
    ∀ (ex : String → Bool) (sysExe : String) (cfg : PyDict) (w o p : String),
    (cfg.map Prod.fst).Nodup →
    dictLookup cfg reservedKey = some (ConfigValue.str p) →
    construct_command ex sysExe cfg w o =
      .ok ([pyQuote sysExe, "-u", pyQuote p]
            ++ pairTokens ex (filterNonNull (dictErase cfg reservedKey))
            ++ fixedTokens w o)
          (dictErase cfg reservedKey)
    ∧ (pairTokens ex (filterNonNull (dictErase cfg reservedKey))).length
        = 2 * (filterNonNull (dictErase cfg reservedKey)).length := by
  intro ex sysExe cfg w o p hnd h
  refine ⟨?_, pairTokens_length ex _⟩
  rw [construct_command_ok ex sysExe cfg w o p h, configArgs_eq_pairTokens]

/-- Witness for C6 on a concrete mapping of mixed scalar types with a
null-valued entry. -/
theorem flag_pairs_per_key_witness :
    (cfgMix.map Prod.fst).Nodup
    ∧ dictLookup cfgMix reservedKey = some (ConfigValue.str "enc.py")
    ∧ (construct_command exFalse "py" cfgMix "w" "o" =
        .ok ([pyQuote "py", "-u", pyQuote "enc.py"]
              ++ pairTokens exFalse (filterNonNull (dictErase cfgMix reservedKey))
              ++ fixedTokens "w" "o")
            (dictErase cfgMix reservedKey)
       ∧ (pairTokens exFalse (filterNonNull (dictErase cfgMix reservedKey))).length
          = 2 * (filterNonNull (dictErase cfgMix reservedKey)).length) :=
  ⟨by decide, by decide,
   flag_pairs_per_key exFalse "py" cfgMix "w" "o" "enc.py" (by decide) (by decide)⟩

theorem splitSlash_ne_nil (l : List Char) : splitSlash l ≠ [] := by
  induction l with
  | nil => simp [splitSlash]
  | cons c rest ih =>
      obtain ⟨g, gs, hg⟩ := List.exists_cons_of_ne_nil ih
      simp only [splitSlash, hg]
      split <;> simp

theorem splitSlash_append_slash (ys : List Char) :
    ∀ xs : List Char, splitSlash (xs ++ '/' :: ys) = splitSlash xs ++ splitSlash ys := by
  intro xs
  induction xs with
  | nil =>
      obtain ⟨g, gs, hg⟩ := List.exists_cons_of_ne_nil (splitSlash_ne_nil ys)
      simp [splitSlash, hg]
  | cons c xs ih =>
      obtain ⟨g, gs, hg⟩ := List.exists_cons_of_ne_nil (splitSlash_ne_nil xs)
      have h1 : splitSlash (c :: (xs ++ '/' :: ys))
          = if c = '/' then [] :: g :: (gs ++ splitSlash ys)
            else (c :: g) :: (gs ++ splitSlash ys) := by
        simp only [splitSlash]
        rw [ih, hg]
        rfl
      have h2 : splitSlash (c :: xs)
          = if c = '/' then [] :: g :: gs else (c :: g) :: gs := by
        simp only [splitSlash]
        rw [hg]
      rw [List.cons_append, h1, h2]
      by_cases hc : c = '/' <;> simp [hc]

theorem splitSlash_no_slash (l : List Char) (h : '/' ∉ l) : splitSlash l = [l] := by
  induction l with
  | nil => rfl
  | cons c rest ih =>
      have hc : c ≠ '/' := fun hc => h (hc ▸ List.mem_cons_self c rest)
      have hr : '/' ∉ rest := fun hr => h (List.mem_cons_of_mem c hr)
      simp only [splitSlash]
      rw [ih hr]
      simp [hc]

theorem listHasSub_single_of_mem (c : Char) (l : List Char) (h : c ∈ l) :
    listHasSub [c] l = true := by
  induction l with
  | nil => cases h
  | cons d rest ih =>
      rcases List.mem_cons.mp h with h1 | h2
      · subst h1
        simp [listHasSub, listLeads]
      · simp [listHasSub, ih h2]

theorem pathName_pathJoin (parent base : String)
    (h1 : pyIn "/" base = false) (h2 : base ≠ "") (h3 : base ≠ ".") :
    pathName (pathJoin parent base) = base := by
  have hnot : '/' ∉ base.data := by
    intro hmem
    rw [show pyIn "/" base = listHasSub ['/'] base.data from rfl,
        listHasSub_single_of_mem '/' base.data hmem] at h1
    simp at h1
  have hdata : (pathJoin parent base).data = parent.data ++ '/' :: base.data := by
    show ((parent ++ "/") ++ base).data = _
    rw [String.data_append, String.data_append,
        show ("/" : String).data = ['/'] from rfl]
    simp
  have hb1 : base.data ≠ [] := fun hb => h2 (congrArg String.mk hb)
  have hb2 : base.data ≠ ['.'] := fun hb => h3 (congrArg String.mk hb)
  have hgood : goodPart base.data = true := by
    simp [goodPart, hb1, hb2]
  unfold pathName
  rw [hdata, splitSlash_append_slash, splitSlash_no_slash base.data hnot,
      List.filter_append,
      show List.filter goodPart [base.data] = [base.data] from by
        simp [List.filter, hgood],
      List.getLast?_concat]
  rfl

/-- C9: for every watch folder and output folder, a successful
`construct_command` ends with the four output tokens `--output-bl` and
`--output-el` followed by the (quoted) paths `output/{name}_bl.h265` and
`output/{name}_el.h265`, where `{name}` is the final path component of the
watch folder; and the final path component of `parent/base` is `base`
whatever the depth of `parent`. -/
theorem output_artifact_names :
    ∀ (ex : String → Bool) (sysExe : String) (cfg : PyDict) (w o p : String),
    dictLookup cfg reservedKey = some (ConfigValue.str p) →
    construct_command ex sysExe cfg w o =
      .ok (([pyQuote sysExe, "-u", pyQuote p]
             ++ configArgs ex (dictErase cfg reservedKey)
             ++ ["--input", pyQuote (pathJoin w "DolbyMaster.mov"),
                 "--input-metadata", pyQuote (pathJoin w "DolbyMetadata.xml")])
            ++ ["--output-bl", pyQuote (pathJoin o (pathName w ++ "_bl.h265")),
                "--output-el", pyQuote (pathJoin o (pathName w ++ "_el.h265"))])
          (dictErase cfg reservedKey)
    ∧ (∀ parent base : String,
        pyIn "/" base = false → base ≠ "" → base ≠ "." →
        pathName (pathJoin parent base) = base) := by
  intro ex sysExe cfg w o p h
  refine ⟨?_, fun parent base h1 h2 h3 => pathName_pathJoin parent base h1 h2 h3⟩
  rw [construct_command_ok ex sysExe cfg w o p h]
  simp [fixedTokens]

/-- Witness for C9: the artifact base name for watch folder "a/b/watchdir"
is "watchdir", independent of the parent "a/b". -/
theorem output_artifact_names_witness :
    dictLookup cfg0 reservedKey = some (ConfigValue.str "enc.py")
    ∧ pyIn "/" "watchdir" = false
    ∧ pathName (pathJoin "a/b" "watchdir") = "watchdir" :=
  ⟨by decide, by decide,
   (output_artifact_names exFalse "py" cfg0 "a/b/watchdir" "out" "enc.py"
      (by decide)).2 "a/b" "watchdir" (by decide) (by decide) (by decide)⟩

theorem hasNL_false_iff (l : List Nat) : hasNL l = false ↔ (10 : Nat) ∉ l := by
  induction l with
  | nil => simp [hasNL]
  | cons b rest ih =>
      by_cases hb : b = 10
      · subst hb
        simp [hasNL]
      · simp [hasNL, hb, ih, eq_comm]

theorem hasNL_true_iff (l : List Nat) : hasNL l = true ↔ (10 : Nat) ∈ l := by
  cases h : hasNL l with
  | false =>
      simp only [Bool.false_eq_true, false_iff]
      exact (hasNL_false_iff l).mp h
  | true =>
      simp only [true_iff]
      by_contra hmem
      rw [(hasNL_false_iff l).mpr hmem] at h
      cases h

theorem takeWhile_buf (buf : List Nat) (hbuf : (10 : Nat) ∉ buf) :
    (buf ++ [10]).takeWhile (fun x => x != 10) = buf := by
  induction buf with
  | nil => rfl
  | cons c rest ih =>
      have hc : c ≠ 10 := fun h => hbuf (h ▸ List.mem_cons_self c rest)
      have hr : (10 : Nat) ∉ rest := fun h => hbuf (List.mem_cons_of_mem c h)
      have hcb : (c != 10) = true := by simp [hc]
      simp only [List.cons_append, List.takeWhile_cons, hcb, if_true]
      rw [ih hr]

theorem streamLoop_nil (tail : List Nat) :
    ∀ buf : List Nat, (10 : Nat) ∉ buf → (10 : Nat) ∉ tail →
      streamLoop buf tail = [] := by
  induction tail with
  | nil => intro buf _ _; rfl
  | cons b rest ih =>
      intro buf hbuf htail
      have hb : b ≠ 10 := fun hb => htail (hb ▸ List.mem_cons_self b rest)
      have hr : (10 : Nat) ∉ rest := fun h => htail (List.mem_cons_of_mem b h)
      have hnl : hasNL (buf ++ [b]) = false := by
        rw [hasNL_false_iff]
        intro hmem
        rcases List.mem_append.mp hmem with h | h
        · exact hbuf h
        · exact hb (List.mem_singleton.mp h).symm
      have hbb : (10 : Nat) ∉ buf ++ [b] := (hasNL_false_iff _).mp hnl
      simp only [streamLoop, hnl]
      simpa using ih (buf ++ [b]) hbb hr

theorem streamLoop_append (tail : List Nat) (htail : (10 : Nat) ∉ tail) :
    ∀ (pre buf : List Nat), (10 : Nat) ∉ buf →
      streamLoop buf (pre ++ tail) = streamLoop buf pre := by
  intro pre
  induction pre with
  | nil =>
      intro buf hbuf
      rw [List.nil_append]
      exact streamLoop_nil tail buf hbuf htail
  | cons b pre ih =>
      intro buf hbuf
      rw [List.cons_append]
      by_cases hb : b = 10
      · subst hb
        have hnl : hasNL (buf ++ [10]) = true := by
          rw [hasNL_true_iff]
          exact List.mem_append.mpr (Or.inr (List.mem_singleton.mpr rfl))
        have hdrop : (buf ++ [10]).drop (buf.length + 1) = [] := by
          have hlen : buf.length + 1 = (buf ++ [10]).length := by simp
          rw [hlen, List.drop_length]
        simp only [streamLoop, hnl, if_true, takeWhile_buf buf hbuf]
        rw [hdrop, ih [] (by simp)]
      · have hnl : hasNL (buf ++ [b]) = false := by
          rw [hasNL_false_iff]
          intro hmem
          rcases List.mem_append.mp hmem with h | h
          · exact hbuf h
          · exact hb (List.mem_singleton.mp h).symm
        have hbb : (10 : Nat) ∉ buf ++ [b] := (hasNL_false_iff _).mp hnl
        simp only [streamLoop, hnl]
        simpa using ih (buf ++ [b]) hbb

/-- C10: the streaming loop of `run_encoding` never decodes, classifies or
prints the bytes after the last newline of the child output: appending a
newline-free trailing segment to any stream leaves the printed lines
unchanged, so a trailing partial line is dropped when the stream closes. -/
theorem trailing_partial_line_discarded :
    ∀ (decode : List Nat → String) (rc : Int) (pre tail : List Nat),
    (10 : Nat) ∉ tail →
    (run_encoding decode (pre ++ tail) rc).1 = (run_encoding decode pre rc).1 := by
  intro decode rc pre tail htail
  simp only [run_encoding]
  rw [streamLoop_append tail htail pre [] (by simp)]

/-- Witness for C10: bytes 112, 113 after the final newline are dropped. -/
theorem trailing_partial_line_discarded_witness :
    (10 : Nat) ∉ ([112, 113] : List Nat)
    ∧ (run_encoding decodeAscii ([104, 105, 10] ++ [112, 113]) 0).1
        = (run_encoding decodeAscii [104, 105, 10] 0).1 :=
  ⟨by decide,
   trailing_partial_line_discarded decodeAscii 0 [104, 105, 10] [112, 113] (by decide)⟩

/-- C7: the success flag returned by `run_encoding` is true exactly when the
exit code of the child process is zero, and it does not depend on the bytes
the process wrote (so not on any error- or warning-classified lines). -/
theorem success_iff_exit_zero :
    ∀ (decode : List Nat → String) (stream : List Nat) (rc : Int),
    ((run_encoding decode stream rc).2 = true ↔ rc = 0)
    ∧ (∀ stream' : List Nat,
        (run_encoding decode stream rc).2 = (run_encoding decode stream' rc).2) := by
  intro decode stream rc
  exact ⟨by simp [run_encoding], fun stream' => rfl⟩

/-- C8: a line whose lowered text contains "error" is classified
error-class, even when it also contains "warning"; otherwise "warning"
yields warning-class; otherwise the line is neutral. Matching is performed
on the lowercased line, hence case-insensitive. -/
theorem line_classification_priority :
    ∀ s : String,
    (pyIn "error" (strLower s) = true → classifyLine s = LineClass.errorClass)
    ∧ (pyIn "error" (strLower s) = true → pyIn "warning" (strLower s) = true →
        classifyLine s = LineClass.errorClass)
    ∧ (pyIn "error" (strLower s) = false → pyIn "warning" (strLower s) = true →
        classifyLine s = LineClass.warningClass)
    ∧ (pyIn "error" (strLower s) = false → pyIn "warning" (strLower s) = false →
        classifyLine s = LineClass.neutral) := by
  intro s
  refine ⟨fun he => by simp [classifyLine, he],
          fun he _ => by simp [classifyLine, he],
          fun he hw => by simp [classifyLine, he, hw],
          fun he hw => by simp [classifyLine, he, hw]⟩

/-- Witness for C8: a line containing both "ERROR" and "Warning" is
error-class. -/
theorem line_classification_priority_witness :
    pyIn "error" (strLower "Disk ERROR: Warning ignored") = true
    ∧ pyIn "warning" (strLower "Disk ERROR: Warning ignored") = true
    ∧ classifyLine "Disk ERROR: Warning ignored" = LineClass.errorClass :=
  ⟨by decide, by decide,
   (line_classification_priority "Disk ERROR: Warning ignored").2.1
     (by decide) (by decide)⟩

theorem stepCycle_missing_key (decode : List Nat → String) (sysExe w o : String)
    (env : CycleEnv) (s : WatcherState)
    (hm : s.movPresent = true) (hx : s.xmlPresent = true)
    (hcfg : dictLookup s.config reservedKey = none) :
    stepCycle decode sysExe w o env s = CycleOutcome.exit errorExitCode s := by
  simp [stepCycle, hm, hx, construct_command_missing env.ex sysExe s.config w o hcfg]

/-- C2: the code contradicts the claim. With both inputs present and an
encoder exit code of 2, the first cycle is indeed recoverable: the inputs
are left in place, nothing is archived, and the loop goes back to polling.
But `construct_command` popped the reserved key from the shared
configuration mapping during that first cycle, so the retry cycle that
re-detects the pair does not re-run the encoder: it fails the reserved-key
check and the process exits with code 1 (after a diagnostic claiming the
configuration file lacks the key it in fact contained). -/
theorem encode_failure_retry_aborts :
    stepCycle decodeAscii "py" "w" "o" envEncodeFail st0 = CycleOutcome.next st1
    ∧ st1.movPresent = true ∧ st1.xmlPresent = true
    ∧ st1.movArchived = false ∧ st1.xmlArchived = false
    ∧ dictLookup st1.config reservedKey = none
    ∧ stepCycle decodeAscii "py" "w" "o" envEncodeFail st1
        = CycleOutcome.exit errorExitCode st1 := by
  exact ⟨by decide, rfl, rfl, rfl, rfl, rfl, by decide⟩

/-- C3, refuted: a configuration error does not exit with code 0 — the
`error` helper always exits with code 1 (here: the configuration file is
missing) — and exit code 1 is not reserved to failures detected before the
loop: a cycle whose command construction fails mid-loop also exits 1. -/
theorem config_error_exit_code_cex :
    load_config false true [] = Except.error errorExitCode
    ∧ errorExitCode ≠ 0
    ∧ stepCycle decodeAscii "py" "w" "o" envEncodeFail st1
        = CycleOutcome.exit errorExitCode st1 := by
  exact ⟨rfl, by decide, by decide⟩

/-- C3 amended: exit code 0 arises only from clean shutdown via user
cancellation (KeyboardInterrupt); configuration errors exit with code 1
after an explicit diagnostic; and exit code 1 is not reserved to pre-loop
failures, since a fatal mid-loop failure (such as the reserved key missing
at command-construction time) exits 1 as well. -/
theorem exit_code_policy :
    ∀ (fileFound parseOk : Bool) (parsed : PyDict),
    keyboardInterruptExitCode = 0
    ∧ ((fileFound = false ∨ parseOk = false) →
        load_config fileFound parseOk parsed = Except.error errorExitCode)
    ∧ (∀ (decode : List Nat → String) (sysExe w o : String) (env : CycleEnv)
         (s : WatcherState),
        s.movPresent = true → s.xmlPresent = true →
        dictLookup s.config reservedKey = none →
        stepCycle decode sysExe w o env s = CycleOutcome.exit errorExitCode s)
    ∧ errorExitCode = 1 := by
  intro fileFound parseOk parsed
  refine ⟨rfl, ?_,
          fun decode sysExe w o env s hm hx hcfg =>
            stepCycle_missing_key decode sysExe w o env s hm hx hcfg, rfl⟩
  intro h
  rcases h with h | h
  · subst h
    rfl
  · subst h
    cases fileFound <;> rfl

/-- Witness for the amended C3 at concrete inputs. -/
theorem exit_code_policy_witness :
    (false = false ∨ true = false)
    ∧ load_config false true [] = Except.error errorExitCode
    ∧ st1.movPresent = true
    ∧ dictLookup st1.config reservedKey = none
    ∧ stepCycle decodeAscii "py" "w" "o" envEncodeFail st1
        = CycleOutcome.exit errorExitCode st1 :=
  ⟨Or.inl rfl,
   (exit_code_policy false true []).2.1 (Or.inl rfl),
   rfl, rfl,
   (exit_code_policy false true []).2.2.1 decodeAscii "py" "w" "o" envEncodeFail st1
     rfl rfl rfl⟩

/-- C4, refuted in part: when the encode succeeded and the move of the
second input fails, the run does abort fatally with the outputs written,
but the two inputs are not both still in the watch folder: the media
master had already been moved into the processed folder when the failure
occurred. -/
theorem archive_second_move_failure_cex :
    stepCycle decodeAscii "py" "w" "o" envArchFail st0
        = CycleOutcome.exit errorExitCode st4
    ∧ st4.movPresent = false
    ∧ st4.movArchived = true
    ∧ st4.outputsWritten = true := by
  exact ⟨by decide, rfl, rfl, rfl⟩

/-- C4 amended: a failure while moving the inputs after a successful encode
is fatal (exit code 1) and leaves the outputs written and the inputs not
fully archived: the metadata document always remains in the watch folder,
unarchived; the media master also remains when the first move fails, but
has already been archived when the failure occurs on the second move. -/
theorem archive_failure_state :
    ∀ (decode : List Nat → String) (sysExe w o : String) (env : CycleEnv)
      (s : WatcherState) (p : String),
    s.movPresent = true → s.xmlPresent = true →
    s.movArchived = false → s.xmlArchived = false →
    dictLookup s.config reservedKey = some (ConfigValue.str p) →
    env.launchOk = true → env.returncode = 0 →
    (env.move1Ok = false ∨ env.move2Ok = false) →
    ∃ s' : WatcherState,
      stepCycle decode sysExe w o env s = CycleOutcome.exit errorExitCode s'
      ∧ s'.outputsWritten = true
      ∧ s'.xmlPresent = true ∧ s'.xmlArchived = false
      ∧ (env.move1Ok = false → s'.movPresent = true ∧ s'.movArchived = false)
      ∧ (env.move1Ok = true → s'.movPresent = false ∧ s'.movArchived = true) := by
  intro decode sysExe w o env s p hm hx hma hxa hcfg hl hrc hmv
  have hok := construct_command_ok env.ex sysExe s.config w o p hcfg
  have hsuc : (run_encoding decode env.stream env.returncode).2 = true := by
    simp [run_encoding, hrc]
  cases h1 : env.move1Ok with
  | false =>
      refine ⟨{ s with config := dictErase s.config reservedKey,
                       outputsWritten := true },
              ?_, rfl, hx, hxa, fun _ => ⟨hm, hma⟩,
              fun hcontra => absurd hcontra (by simp [h1])⟩
      simp [stepCycle, hm, hx, hok, hl, hsuc, h1]
  | true =>
      have h2 : env.move2Ok = false := by
        rcases hmv with h | h
        · rw [h1] at h
          cases h
        · exact h
      refine ⟨{ s with config := dictErase s.config reservedKey,
                       outputsWritten := true, movPresent := false,
                       movArchived := true },
              ?_, rfl, hx, hxa,
              fun hcontra => absurd hcontra (by simp [h1]),
              fun _ => ⟨rfl, rfl⟩⟩
      simp [stepCycle, hm, hx, hok, hl, hsuc, h1, h2]

/-- Witness for the amended C4 at concrete inputs: second move fails. -/
theorem archive_failure_state_witness :
    st0.movPresent = true ∧ envArchFail.move2Ok = false
    ∧ (∃ s' : WatcherState,
        stepCycle decodeAscii "py" "w" "o" envArchFail st0
            = CycleOutcome.exit errorExitCode s'
        ∧ s'.outputsWritten = true
        ∧ s'.xmlPresent = true ∧ s'.xmlArchived = false
        ∧ (envArchFail.move1Ok = false → s'.movPresent = true ∧ s'.movArchived = false)
        ∧ (envArchFail.move1Ok = true → s'.movPresent = false ∧ s'.movArchived = true)) :=
  ⟨rfl, rfl,
   archive_failure_state decodeAscii "py" "w" "o" envArchFail st0 "enc.py"
     rfl rfl rfl rfl (by decide) rfl rfl (Or.inr rfl)⟩

end DV7
